import Mathlib

/-!
# go-trace: the tracer facade and the metadata carrier adapter

A shallow embedding of `trace/trace.go` (package `traces`).

The package is a thin layer over three libraries: gRPC `metadata`, the
OpenTelemetry API (`trace`, `codes`, `attribute`, `propagation`, `otel`) and the
SLS `provider`.  What the package itself computes is embedded function by
function.  The library operations it calls are embedded as follows.

* Data operations with a fixed meaning (`metadata.MD.Get`, `metadata.MD.Set`,
  `metadata.New`, `propagation.MapCarrier`, `codes.Code`, `strings.ToLower`)
  are written out after the library source.  The Unicode case tables that
  `strings.ToLower` reads for the runes from U+0080 on are an argument,
  `lowerRune`, of every definition that lower-cases a key, so every theorem
  holds for the tables of the Go release in use.
* Interfaces whose implementation is chosen at run time (`trace.Tracer`,
  `propagation.TextMapPropagator`, `provider.NewConfig`, `provider.Start`) are
  fields of a structure, so every theorem holds for every implementation.
* Calls whose only role is their effect on a library object (`Tracer.Start`,
  `Span.RecordError`, `Span.SetAttributes`, `Span.SetStatus`, `Span.End`) are
  appended to a log of calls, in program order.

Go leaves the order of `range` over a map unspecified.  A map is a list of
entries; where the order of a `range` can change a result, that order is an
explicit argument.
-/

namespace Traces

/-! ## Go values -/

/-- The run-time panics the embedded code can raise. -/
inductive GoPanic where
  /-- Go: "assignment to entry in nil map". -/
  | assignmentToEntryInNilMap
  deriving DecidableEq, Repr

/-- A non-nil Go `error`; `Error()` returns `msg`. -/
structure ErrorValue where
  msg : String
  deriving DecidableEq, Repr

/-- The Go interface type `error`: `none` is `nil`. -/
abbrev GoError := Option ErrorValue

/-- Go `errors.New(text)`. -/
def errorsNew (text : String) : GoError := some ⟨text⟩

/-- Entries of a non-nil Go map with string keys.  A lookup sees the first
entry of a key. -/
abbrev Entries (V : Type) := List (String × V)

/-- Go `m[k]` with the comma-ok result: the value stored under `k`, if any. -/
def Entries.find {V : Type} : Entries V → String → Option V
  | [], _ => none
  | (k', v) :: rest, k => if k' = k then some v else Entries.find rest k

/-- Go `m[k] = v` on a non-nil map: `k` is left with the one value `v`. -/
def Entries.assign {V : Type} (es : Entries V) (k : String) (v : V) : Entries V :=
  (k, v) :: es.filter (fun e => !decide (e.1 = k))

/-- Go `unicode.ToLower` on one rune: below U+0080 the letters `A` to `Z` are
moved to `a` to `z` and nothing else changes; from U+0080 on Go reads its
Unicode case tables, here the function `lowerRune`. -/
def runeToLower (lowerRune : Char → Char) (c : Char) : Char :=
  if c.toNat < 128 then Char.toLower c else lowerRune c

/-- Go `strings.ToLower`: each rune of the string is mapped by
`unicode.ToLower` (the fast path Go takes on an all-ASCII string gives the same
result).  Strings are sequences of Unicode characters, as Go strings holding
well-formed UTF-8 are. -/
def ToLower (lowerRune : Char → Char) (s : String) : String :=
  ⟨s.data.map (runeToLower lowerRune)⟩

/-! ## `google.golang.org/grpc/metadata` -/

/-- Go `type MD map[string][]string`; `none` is the nil map. -/
abbrev MD := Option (Entries (List String))

/-- Library `func (md MD) Get(k string) []string`:
`k = strings.ToLower(k); return md[k]`.  Reading a nil map or a missing key
gives the nil slice. -/
def MD.Get (lowerRune : Char → Char) (md : MD) (k : String) : List String :=
  match md with
  | none => []
  | some es => (es.find (ToLower lowerRune k)).getD []

/-- Library `func (md MD) Set(k string, vals ...string)`:
`if len(vals) == 0 { return }; k = strings.ToLower(k); md[k] = vals`.
The assignment panics on a nil map. -/
def MD.Set (lowerRune : Char → Char) (md : MD) (k : String) (vals : List String) :
    Except GoPanic MD :=
  if vals.length = 0 then .ok md
  else
    match md with
    | none => .error GoPanic.assignmentToEntryInNilMap
    | some es => .ok (some (es.assign (ToLower lowerRune k) vals))

/-- Library `func New(m map[string]string) MD`: a fresh non-nil map holding,
under each lower-cased key, the values of `m`.  The package only calls
`metadata.New(nil)`; a nil argument is the empty list. -/
def metadataNew (lowerRune : Char → Char) (m : Entries String) : MD :=
  some (m.foldl (fun md e =>
    let key := ToLower lowerRune e.1
    md.assign key ((md.find key).getD [] ++ [e.2])) [])

/-! ## `MDAdapter` (trace.go 179-203) -/

/-- Go `type MDAdapter struct { MD metadata.MD }`. -/
structure MDAdapter where
  MD : MD
  deriving DecidableEq, Repr

/-- Go `func (m MDAdapter) Get(key string) string`. -/
def MDAdapter.Get (lowerRune : Char → Char) (m : MDAdapter) (key : String) : String :=
  let values := MD.Get lowerRune m.MD key
  match values with
  | v :: _ => v
  | [] => ""

/-- Go `func (m MDAdapter) Set(key string, value string)`: the map behind `m.MD`
is updated in place; the result is the adapter over the updated map, or the
panic. -/
def MDAdapter.Set (lowerRune : Char → Char) (m : MDAdapter) (key : String) (value : String) :
    Except GoPanic MDAdapter :=
  match MD.Set lowerRune m.MD key [value] with
  | .ok md => .ok { MD := md }
  | .error p => .error p

/-- Go `func (m MDAdapter) Keys() []string`: the keys in the order `range`
visits them (here the order of the entries); `range` over a nil map visits
nothing. -/
def MDAdapter.Keys (m : MDAdapter) : List String :=
  match m.MD with
  | none => []
  | some es => es.foldl (fun keys e => keys ++ [e.1]) []

/-! ## OpenTelemetry API values -/

/-- Library `codes.Code` (a `uint32`): `Unset = 0`, `Error = 1`, `Ok = 2`. -/
inductive Code where
  | Unset
  | Error
  | Ok
  deriving DecidableEq, Repr

/-- The numeric value of a `codes.Code`. -/
def Code.toNat : Code → Nat
  | .Unset => 0
  | .Error => 1
  | .Ok => 2

/-- Library `func (c Code) String() string`. -/
def Code.String : Code → String
  | .Unset => "Unset"
  | .Error => "Error"
  | .Ok => "Ok"

/-- Library `trace.SpanKind`. -/
inductive SpanKind where
  | Unspecified
  | Internal
  | Server
  | Client
  | Producer
  | Consumer
  deriving DecidableEq, Repr

/-- Library `trace.SpanStartOption`, as far as the package builds one. -/
inductive SpanStartOption where
  /-- Go `trace.WithSpanKind(kind)`. -/
  | WithSpanKind (kind : SpanKind)
  deriving DecidableEq, Repr

/-- Library `attribute.Value`, as far as the package builds one. -/
inductive AttrValue where
  | STRING (s : String)
  | INT64 (n : Int)
  deriving DecidableEq, Repr

/-- Library `attribute.KeyValue`. -/
structure KeyValue where
  Key : String
  Value : AttrValue
  deriving DecidableEq, Repr

/-- Go `attribute.String(k, v)`. -/
def attributeString (k v : String) : KeyValue := { Key := k, Value := .STRING v }

/-- Go `attribute.Int64(k, v)`. -/
def attributeInt64 (k : String) (v : Int) : KeyValue := { Key := k, Value := .INT64 v }

/-- The two hexadecimal digits of a byte, as `hex.EncodeToString` writes them. -/
def hexByte (b : Fin 256) : List Char :=
  let digits := "0123456789abcdef".data
  [digits.getD (b.val / 16) '0', digits.getD (b.val % 16) '0']

/-- Go `hex.EncodeToString`. -/
def hexEncode (bs : List (Fin 256)) : String := ⟨(bs.map hexByte).flatten⟩

/-- Library `trace.SpanContext`, the identifiers: `TraceID` is a `[16]byte`,
`SpanID` an `[8]byte`. -/
structure SpanContext where
  traceID : List (Fin 256)
  spanID : List (Fin 256)
  deriving DecidableEq, Repr

/-- Library `SpanContext.HasTraceID`: the trace ID is not all zero. -/
def SpanContext.HasTraceID (sc : SpanContext) : Bool := sc.traceID.any (fun b => decide (b ≠ 0))

/-- Library `SpanContext.HasSpanID`: the span ID is not all zero. -/
def SpanContext.HasSpanID (sc : SpanContext) : Bool := sc.spanID.any (fun b => decide (b ≠ 0))

/-- Go `context.Context`, as far as the package looks into one. -/
structure Context where
  /-- Result of `trace.SpanContextFromContext(ctx)`; the zero value when `ctx`
  holds no span. -/
  spanContext : SpanContext
  /-- Result of `metadata.FromOutgoingContext(ctx)`; nil when there is none. -/
  outgoing : MD
  /-- Result of `metadata.FromIncomingContext(ctx)`; nil when there is none. -/
  incoming : MD
  deriving DecidableEq, Repr

/-- Go `metadata.NewOutgoingContext(ctx, md)`: the collection a later
`metadata.FromOutgoingContext` returns is `md` (the library may return a copy
with the same lower-case keys and values). -/
def NewOutgoingContext (ctx : Context) (md : MD) : Context := { ctx with outgoing := md }

/-- A non-nil `trace.Span`, known by its identity. -/
structure Span where
  id : Nat
  deriving DecidableEq, Repr

/-- A call the package makes on the tracer or on a span. -/
inductive Call where
  /-- Go `tracer.Start(ctx, spanName, opts...)`. -/
  | Start (ctx : Context) (spanName : String) (opts : List SpanStartOption)
  /-- Go `span.RecordError(err)`. -/
  | RecordError (span : Span) (err : ErrorValue)
  /-- Go `span.SetAttributes(kv...)`. -/
  | SetAttributes (span : Span) (kv : List KeyValue)
  /-- Go `span.SetStatus(code, description)`. -/
  | SetStatus (span : Span) (code : Code) (description : String)
  /-- Go `span.End()`. -/
  | End (span : Span)
  deriving DecidableEq, Repr

/-- Library interface `trace.Tracer`: what `Start` returns, which may depend on
the calls made so far.  The returned `trace.Span` is an interface value, `none`
being nil. -/
structure Tracer where
  Start : List Call → Context → String → List SpanStartOption → Context × Option Span

/-- Library interface `trace.TracerProvider`. -/
structure TracerProvider where
  Tracer : String → Tracer

/-- Library interface `propagation.TextMapCarrier`: an object with the methods
`Get`, `Set` and `Keys`.  The object is the state it holds and what each method
does on a state; `Set` gives the state after the call, or panics. -/
structure TextMapCarrier where
  State : Type
  state : State
  Get : State → String → String
  Set : State → String → String → Except GoPanic State
  Keys : State → List String

/-- Library interface `propagation.TextMapPropagator`.  `Inject` is given a
`propagation.MapCarrier` (a `map[string]string`) and leaves it changed;
`Extract` is given a carrier, which it may use through its three methods, and
returns a context. -/
structure TextMapPropagator where
  Inject : Context → Entries String → Entries String
  Extract : Context → TextMapCarrier → Context

/-- An `MDAdapter` as a `propagation.TextMapCarrier`: the state is the
collection behind `m.MD`, the methods are the three methods of `MDAdapter`. -/
def MDAdapter.toCarrier (lowerRune : Char → Char) (m : MDAdapter) : TextMapCarrier :=
  { State := Traces.MD
    state := m.MD
    Get := fun md key => MDAdapter.Get lowerRune { MD := md } key
    Set := fun md key value =>
      match MDAdapter.Set lowerRune { MD := md } key value with
      | .ok m => .ok m.MD
      | .error p => .error p
    Keys := fun md => MDAdapter.Keys { MD := md } }

/-! ## The facade (trace.go 15-177) -/

/-- Go `type TraceConfig struct`. -/
structure TraceConfig where
  Version : String
  Endpoint : String
  Project : String
  Instance : String
  AccessKeyId : String
  AccessKeySecret : String
  ServiceName : String
  ServiceNamespace : String
  deriving DecidableEq, Repr

/-- Go `type TracerSpan struct`. -/
structure TracerSpan where
  config : TraceConfig
  provider : TracerProvider
  propagator : TextMapPropagator
  tracer : Tracer

/-- What `StartSpan` returns: `(context.Context, trace.Span, error)`, each of
which may be nil. -/
structure StartSpanResult where
  ctx : Option Context
  span : Option Span
  err : GoError
  deriving DecidableEq, Repr

/-- Go `func (tc *TracerSpan) StartSpan(ctx, spanName, types)`, with the log of
calls made before and after. -/
def TracerSpan.StartSpan (tc : TracerSpan) (log : List Call) (ctx : Context)
    (spanName : String) (types : String) : StartSpanResult × List Call :=
  let spanKind : Option SpanKind :=
    match types with
    | "server" => some SpanKind.Server
    | "client" => some SpanKind.Client
    | "rabbitmq" | "cron" => some SpanKind.Internal
    | _ => none
  match spanKind with
  | none =>
    ({ ctx := none, span := none,
       err := errorsNew "trace 启动方式错误，只支持服务端和客户端以及内部方式" }, log)
  | some spanKind =>
    let opts := [SpanStartOption.WithSpanKind spanKind]
    let started := tc.tracer.Start log ctx spanName opts
    ({ ctx := some started.1, span := started.2, err := none },
      log ++ [Call.Start ctx spanName opts])

/-- Go `func (tc *TracerSpan) EndSpan(ctx, span, err)`, with the log of calls
made before and after. -/
def TracerSpan.EndSpan (_tc : TracerSpan) (log : List Call) (_ctx : Context)
    (span : Option Span) (err : GoError) : List Call :=
  match span with
  | none => log
  | some span =>
    let traceStatusCode := Code.Ok
    let traceStatusDesc := Code.Ok.String
    let traceLevel := "INFO"
    let (log, traceStatusCode, traceStatusDesc, traceLevel) :=
      match err with
      | some e => (log ++ [Call.RecordError span e], Code.Error, e.msg, "ERROR")
      | none => (log, traceStatusCode, traceStatusDesc, traceLevel)
    let log := log ++ [Call.SetAttributes span
      [attributeString "trace.level" traceLevel,
       attributeInt64 "rpc.status_code" (Int.ofNat traceStatusCode.toNat)]]
    let log := log ++ [Call.SetStatus span traceStatusCode traceStatusDesc]
    log ++ [Call.End span]

/-- Go `func (tc *TracerSpan) GetTraceID(ctx) string`. -/
def TracerSpan.GetTraceID (_tc : TracerSpan) (ctx : Context) : String :=
  let span := ctx.spanContext
  if span.HasTraceID then hexEncode span.traceID else ""

/-- Go `func (tc *TracerSpan) GetSpanID(ctx) string`. -/
def TracerSpan.GetSpanID (_tc : TracerSpan) (ctx : Context) : String :=
  let span := ctx.spanContext
  if span.HasSpanID then hexEncode span.spanID else ""

/-- The loop `for key, value := range carrier { md.Set(key, value) }` over the
entries in the order `range` visits them. -/
def setAll (lowerRune : Char → Char) (md : MD) : List (String × String) → Except GoPanic MD
  | [] => .ok md
  | (key, value) :: rest =>
    match MD.Set lowerRune md key [value] with
    | .ok md => setAll lowerRune md rest
    | .error p => .error p

/-- Go `func (tc *TracerSpan) GetCtxToGrpc(ctx) context.Context`.  The argument
`visit` is the order in which `range` goes through the carrier. -/
def TracerSpan.GetCtxToGrpc (lowerRune : Char → Char) (tc : TracerSpan) (ctx : Context)
    (visit : Entries String → List (String × String)) : Except GoPanic Context :=
  let carrier : Entries String := []
  let carrier := tc.propagator.Inject ctx carrier
  let md := ctx.outgoing
  let md := if md = none then metadataNew lowerRune [] else md
  match setAll lowerRune md (visit carrier) with
  | .ok md => .ok (NewOutgoingContext ctx md)
  | .error p => .error p

/-- Go `func (tc *TracerSpan) GetCtxForClient(ctx) context.Context`. -/
def TracerSpan.GetCtxForClient (lowerRune : Char → Char) (tc : TracerSpan) (ctx : Context) :
    Context :=
  let md := ctx.incoming
  let carrier : MDAdapter := { MD := md }
  let carrier :=
    if carrier.MD = none then { carrier with MD := metadataNew lowerRune [] } else carrier
  tc.propagator.Extract ctx (carrier.toCarrier lowerRune)

/-! ## Initialisation and the singleton (trace.go 15-94) -/

/-- The options `InitTrace` hands to `provider.NewConfig`. -/
structure SlsOptions where
  ServiceName : String
  ServiceNamespace : String
  ServiceVersion : String
  TraceExporterEndpoint : String
  MetricExporterEndpoint : String
  Project : String
  InstanceID : String
  AccessKeyID : String
  AccessKeySecret : String
  deriving DecidableEq, Repr

/-- The global state of package `otel`. -/
structure Otel where
  tracerProvider : TracerProvider
  textMapPropagator : TextMapPropagator

/-- Package `provider` of the SLS exporter: `NewConfig` accepts the options or
returns an error; `Start` returns an error or not and may replace the `otel`
globals. -/
structure Provider where
  NewConfig : SlsOptions → Except ErrorValue SlsOptions
  Start : SlsOptions → Otel → GoError × Otel

/-- The state of the process the package lives in. -/
structure Process where
  /-- Go `var newTrace *TracerSpan`: nil, or the address of a `TracerSpan`. -/
  newTrace : Option Nat
  /-- The `TracerSpan` values allocated so far; an address is an index. -/
  heap : List TracerSpan
  otel : Otel
  /-- The configurations `InitTrace` was called with, oldest first. -/
  initCalls : List TraceConfig

/-- Go `func InitTrace(config)`. -/
def InitTrace (sls : Provider) (config : TraceConfig) (p : Process) :
    Except ErrorValue (TracerProvider × TextMapPropagator) × Process :=
  let p := { p with initCalls := p.initCalls ++ [config] }
  match sls.NewConfig
      { ServiceName := config.ServiceName
        ServiceNamespace := config.ServiceNamespace
        ServiceVersion := config.Version
        TraceExporterEndpoint := config.Endpoint
        MetricExporterEndpoint := config.Endpoint
        Project := config.Project
        InstanceID := config.Instance
        AccessKeyID := config.AccessKeyId
        AccessKeySecret := config.AccessKeySecret } with
  | .error err => (.error err, p)
  | .ok slsConfig =>
    match sls.Start slsConfig p.otel with
    | (some err, otel) => (.error err, { p with otel := otel })
    | (none, otel) =>
      let p := { p with otel := otel }
      let tracerProvider := p.otel.tracerProvider
      let propagator := p.otel.textMapPropagator
      (.ok (tracerProvider, propagator), p)

/-- Go `func GetTracer(provider, propagator, name) trace.Tracer`. -/
def GetTracer (provider : TracerProvider) (propagator : TextMapPropagator) (name : String)
    (p : Process) : Tracer × Process :=
  let p := { p with otel := { p.otel with tracerProvider := provider } }
  let p := { p with otel := { p.otel with textMapPropagator := propagator } }
  (p.otel.tracerProvider.Tracer name, p)

/-- Go `func GetNewTracerSpan(config) (*TracerSpan, error)`. -/
def GetNewTracerSpan (sls : Provider) (config : TraceConfig) (p : Process) :
    (Option Nat × GoError) × Process :=
  match p.newTrace with
  | some t => ((some t, none), p)
  | none =>
    match InitTrace sls config p with
    | (.error err, p) => ((none, some err), p)
    | (.ok (providers, propagator), p) =>
      let (tracer, p) := GetTracer providers propagator config.ServiceName p
      let t := p.heap.length
      let p := { p with
        heap := p.heap ++ [{ config := config, provider := providers,
                             propagator := propagator, tracer := tracer }]
        newTrace := some t }
      ((p.newTrace, none), p)

/-! ## Callers and collaborators used to exercise the package -/

/-- A caller that makes the calls `Set(k, v)` on a carrier one after the other,
in the order of `calls`. -/
def MDAdapter.SetMany (lowerRune : Char → Char) (m : MDAdapter) :
    List (String × String) → Except GoPanic MDAdapter
  | [] => .ok m
  | (k, v) :: rest =>
    match m.Set lowerRune k v with
    | .ok m => MDAdapter.SetMany lowerRune m rest
    | .error p => .error p

/-- A case table that leaves every rune from U+0080 on as it is; it stands for
the tables of Go where all the keys are ASCII. -/
def plainTable : Char → Char := fun c => c

/-- A tracer that numbers its spans: the span it starts carries the number of
calls made before it, and the context comes back as given. -/
def countingTracer : Tracer :=
  { Start := fun log ctx _ _ => (ctx, some { id := log.length }) }

/-- A provider whose tracers are all the counting tracer. -/
def countingProvider : TracerProvider := { Tracer := fun _ => countingTracer }

/-- A propagator that writes nothing and reads nothing. -/
def idlePropagator : TextMapPropagator :=
  { Inject := fun _ carrier => carrier, Extract := fun ctx _ => ctx }

/-- A context with no span and no metadata. -/
def background : Context :=
  { spanContext := { traceID := [], spanID := [] }, outgoing := none, incoming := none }

/-- The configuration of `main.go`. -/
def mainConfig : TraceConfig :=
  { Version := "v1.0", Endpoint := "test", Project := "test", Instance := "test",
    AccessKeyId := "test", AccessKeySecret := "test", ServiceName := "aaaaaaaaaa",
    ServiceNamespace := "bbbbbbbbbbbbbbbb" }

/-- A facade over the counting tracer. -/
def countingFacade : TracerSpan :=
  { config := mainConfig, provider := countingProvider, propagator := idlePropagator,
    tracer := countingTracer }

/-- An exporter package that refuses a configuration without a service name
and otherwise starts without error, leaving the globals of `otel` as they
are. -/
def strictSls : Provider :=
  { NewConfig := fun o =>
      if o.ServiceName = "" then .error { msg := "empty service name" } else .ok o
    Start := fun _ otel => (none, otel) }

/-- A process in which `GetNewTracerSpan` was never called. -/
def freshProcess : Process :=
  { newTrace := none, heap := [],
    otel := { tracerProvider := countingProvider, textMapPropagator := idlePropagator },
    initCalls := [] }

/-- The configuration of `main.go` with the service name left empty. -/
def unnamedConfig : TraceConfig := { mainConfig with ServiceName := "" }

/-- The configuration of `main.go` with another endpoint. -/
def otherConfig : TraceConfig := { mainConfig with Endpoint := "other" }

/-- The value of a hexadecimal digit. -/
def hexValue (c : Char) : Nat := "0123456789abcdef".data.indexOf c

/-- Go `hex.DecodeString` on well-formed input. -/
def hexDecode : List Char → List (Fin 256)
  | a :: b :: rest => Fin.ofNat (hexValue a * 16 + hexValue b) :: hexDecode rest
  | _ => []

/-- A propagator that carries the trace ID, in hexadecimal, under the one
mixed-case key "Trace-Id". -/
def headerPropagator : TextMapPropagator :=
  { Inject := fun ctx carrier => carrier.assign "Trace-Id" (hexEncode ctx.spanContext.traceID)
    Extract := fun ctx carrier =>
      { ctx with spanContext :=
          { ctx.spanContext with
            traceID := hexDecode (carrier.Get carrier.state "Trace-Id").data } } }

/-- A facade over the header propagator. -/
def headerFacade : TracerSpan :=
  { config := mainConfig, provider := countingProvider, propagator := headerPropagator,
    tracer := countingTracer }

/-- A context that carries a span context and outgoing metadata in which the
propagator's key already holds two stale values. -/
def tracedContext : Context :=
  { spanContext := { traceID := [1, 2, 3, 4, 5, 6, 7, 8, 9, 10, 11, 12, 13, 14, 15, 16],
                     spanID := [1, 2, 3, 4, 5, 6, 7, 8] },
    outgoing := some [("trace-id", ["stale", "older"]), ("user", ["u1"])],
    incoming := none }

/-- A context that carries a span context and no metadata. -/
def bareTracedContext : Context := { tracedContext with outgoing := none }

/-- A propagator that carries the trace ID under "Trace-Id", as the header
propagator does, and a second entry under "trace-id" that holds another
value. -/
def shadowPropagator : TextMapPropagator :=
  { Inject := fun ctx carrier =>
      (carrier.assign "Trace-Id" (hexEncode ctx.spanContext.traceID)).assign
        "trace-id" "ffffffffffffffffffffffffffffffff"
    Extract := headerPropagator.Extract }

/-- A facade over the shadow propagator. -/
def shadowFacade : TracerSpan :=
  { config := mainConfig, provider := countingProvider, propagator := shadowPropagator,
    tracer := countingTracer }

/-- A propagator whose `Extract` calls `Set` on the carrier it is given and
tells by the trace ID of the context it returns whether the call panicked. -/
def probePropagator : TextMapPropagator :=
  { Inject := fun _ carrier => carrier
    Extract := fun ctx carrier =>
      match carrier.Set carrier.state "probe" "1" with
      | .ok _ => ctx
      | .error _ => { ctx with spanContext := { ctx.spanContext with traceID := [255] } } }

/-- A facade over the probe propagator. -/
def probeFacade : TracerSpan :=
  { config := mainConfig, provider := countingProvider, propagator := probePropagator,
    tracer := countingTracer }

/-! ## Lemmas on Go maps -/

theorem Entries.find_assign_same {V : Type} (es : Entries V) (k : String) (v : V) :
    (es.assign k v).find k = some v := by
  simp [Entries.assign, Entries.find]

theorem Entries.find_filter_ne {V : Type} (es : Entries V) (k k' : String) (h : k' ≠ k) :
    Entries.find (es.filter (fun e => !decide (e.1 = k))) k' = Entries.find es k' := by
  induction es with
  | nil => rfl
  | cons e rest ih =>
    obtain ⟨a, b⟩ := e
    by_cases hak : a = k
    · subst hak
      have hne : ¬ a = k' := fun h' => h h'.symm
      simp [List.filter, Entries.find, hne, ih]
    · by_cases hak' : a = k'
      · subst hak'
        simp [List.filter, Entries.find, hak]
      · simp [List.filter, Entries.find, hak, hak', ih]

theorem Entries.find_assign_ne {V : Type} (es : Entries V) (k k' : String) (v : V)
    (h : k' ≠ k) : (es.assign k v).find k' = es.find k' := by
  have hne : ¬ k = k' := fun h' => h h'.symm
  simp [Entries.assign, Entries.find, hne, Entries.find_filter_ne es k k' h]

theorem keys_foldl_eq (es : Entries (List String)) (acc : List String) :
    es.foldl (fun keys e => keys ++ [e.1]) acc = acc ++ es.map (fun e => e.1) := by
  induction es generalizing acc with
  | nil => simp
  | cons e rest ih => simp [List.foldl, ih]

theorem MDAdapter.Keys_some (es : Entries (List String)) :
    MDAdapter.Keys { MD := some es } = es.map (fun e => e.1) := by
  simp [MDAdapter.Keys, keys_foldl_eq]

theorem MDAdapter.Set_some (lowerRune : Char → Char) (es : Entries (List String))
    (k v : String) :
    MDAdapter.Set lowerRune { MD := some es } k v =
      .ok { MD := some (es.assign (ToLower lowerRune k) [v]) } := by
  simp [MDAdapter.Set, MD.Set]

theorem mem_keys_assign (es : Entries (List String)) (k k' : String) (vals : List String)
    (h : k' = k ∨ k' ∈ es.map (fun e => e.1)) :
    k' ∈ (es.assign k vals).map (fun e => e.1) := by
  by_cases hk : k' = k
  · simp [Entries.assign, hk]
  · rcases h with h | h
    · exact absurd h hk
    · simp only [List.mem_map] at h ⊢
      obtain ⟨e, he, rfl⟩ := h
      exact ⟨e, by simp [Entries.assign, he, hk], rfl⟩

theorem MDAdapter.SetMany_some (lowerRune : Char → Char) (calls : List (String × String))
    (es : Entries (List String)) :
    ∃ es', MDAdapter.SetMany lowerRune { MD := some es } calls = .ok { MD := some es' } ∧
      (∀ k, k ∈ es.map (fun e => e.1) → k ∈ es'.map (fun e => e.1)) ∧
      (∀ kv, kv ∈ calls → ToLower lowerRune kv.1 ∈ es'.map (fun e => e.1)) := by
  induction calls generalizing es with
  | nil => exact ⟨es, rfl, fun _ h => h, by simp⟩
  | cons c rest ih =>
    obtain ⟨k, v⟩ := c
    obtain ⟨es', hrun, hold, hnew⟩ := ih (es.assign (ToLower lowerRune k) [v])
    refine ⟨es', ?_, ?_, ?_⟩
    · simp [MDAdapter.SetMany, MDAdapter.Set_some, hrun]
    · intro k' hk'
      exact hold k' (mem_keys_assign es (ToLower lowerRune k) k' [v] (Or.inr hk'))
    · intro kv hkv
      rcases List.mem_cons.mp hkv with h | h
      · subst h
        exact hold _ (mem_keys_assign es (ToLower lowerRune k) (ToLower lowerRune k) [v]
          (Or.inl rfl))
      · exact hnew kv h

theorem setAll_some (lowerRune : Char → Char) (pairs : List (String × String))
    (es : Entries (List String)) :
    ∃ es', setAll lowerRune (some es) pairs = .ok (some es') ∧
      (∀ key, key ∉ pairs.map (fun e => ToLower lowerRune e.1) → es'.find key = es.find key) ∧
      ((pairs.map (fun e => ToLower lowerRune e.1)).Nodup →
        ∀ e, e ∈ pairs → es'.find (ToLower lowerRune e.1) = some [e.2]) := by
  induction pairs generalizing es with
  | nil => exact ⟨es, rfl, fun _ _ => rfl, fun _ e he => by cases he⟩
  | cons c rest ih =>
    obtain ⟨k, v⟩ := c
    obtain ⟨es', hrun, hother, hset⟩ := ih (es.assign (ToLower lowerRune k) [v])
    refine ⟨es', ?_, ?_, ?_⟩
    · simp [setAll, MD.Set, hrun]
    · intro key hkey
      simp only [List.map_cons, List.mem_cons, not_or] at hkey
      rw [hother key hkey.2]
      exact Entries.find_assign_ne es (ToLower lowerRune k) key [v] hkey.1
    · intro hnd e he
      simp only [List.map_cons, List.nodup_cons] at hnd
      rcases List.mem_cons.mp he with h | h
      · subst h
        rw [hother (ToLower lowerRune k) hnd.1]
        exact Entries.find_assign_same es (ToLower lowerRune k) [v]
      · exact hset hnd.2 e h

/-! ## The carrier adapter -/

/-- C6: for every carrier over a (non-nil) metadata collection, every key k and
every value v, the empty string included, Set(k, v) completes and a Get(k)
afterwards returns exactly v; whatever values k held before, the collection's
value list for k afterwards is the single value v: Set overwrites, it does not
append.  This holds whatever the Unicode case tables are. -/
theorem MDAdapter_Set_then_Get (lowerRune : Char → Char) (es : Entries (List String))
    (k v : String) :
    ∃ m' : MDAdapter, MDAdapter.Set lowerRune { MD := some es } k v = .ok m' ∧
      m'.Get lowerRune k = v ∧ MD.Get lowerRune m'.MD k = [v] := by
  refine ⟨{ MD := some (es.assign (ToLower lowerRune k) [v]) },
    MDAdapter.Set_some lowerRune es k v, ?_, ?_⟩
  · simp [MDAdapter.Get, MD.Get, Entries.find_assign_same]
  · simp [MD.Get, Entries.find_assign_same]

/-- C7, as stated, fails in both directions.  The collection with the one entry
"foo" has no entry for the key "FOO", and Get("FOO") returns "x", not the empty
string.  The collection with the one entry "Foo" holds the value "x" for the
key "Foo", and Get("Foo") returns the empty string. -/
theorem MDAdapter_Get_not_by_exact_key :
    (Entries.find [("foo", ["x"])] "FOO" = none ∧
      ∀ lowerRune : Char → Char,
        MDAdapter.Get lowerRune { MD := some [("foo", ["x"])] } "FOO" = "x") ∧
    (Entries.find [("Foo", ["x"])] "Foo" = some ["x"] ∧
      ∀ lowerRune : Char → Char,
        MDAdapter.Get lowerRune { MD := some [("Foo", ["x"])] } "Foo" = "") :=
  ⟨⟨by decide, fun _ => rfl⟩, ⟨by decide, fun _ => rfl⟩⟩

/-- C7, amended: for every metadata collection (nil included) and every key,
Get(key) returns the first of the values the collection holds under
strings.ToLower(key), and the empty string when the collection holds no entry
under strings.ToLower(key), holds an empty value list there, or is nil.  Get is
a total function: it never fails. -/
theorem MDAdapter_Get_first_or_empty (lowerRune : Char → Char) (m : MDAdapter) (key : String) :
    (∀ es v vs, m.MD = some es → es.find (ToLower lowerRune key) = some (v :: vs) →
      m.Get lowerRune key = v) ∧
    (∀ es, m.MD = some es → es.find (ToLower lowerRune key) = none →
      m.Get lowerRune key = "") ∧
    (∀ es, m.MD = some es → es.find (ToLower lowerRune key) = some [] →
      m.Get lowerRune key = "") ∧
    (m.MD = none → m.Get lowerRune key = "") := by
  refine ⟨?_, ?_, ?_, ?_⟩
  · intro es v vs hm hf
    simp [MDAdapter.Get, MD.Get, hm, hf]
  · intro es hm hf
    simp [MDAdapter.Get, MD.Get, hm, hf]
  · intro es hm hf
    simp [MDAdapter.Get, MD.Get, hm, hf]
  · intro hm
    simp [MDAdapter.Get, MD.Get, hm]

/-- C7, amended, at a concrete collection: the key "A" finds the entry "a" and
gives the first of its two values; a key with an empty value list and a missing
key give the empty string. -/
theorem MDAdapter_Get_first_or_empty_witness :
    MDAdapter.Get plainTable { MD := some [("a", ["x", "y"]), ("b", [])] } "A" = "x" ∧
    MDAdapter.Get plainTable { MD := some [("a", ["x", "y"]), ("b", [])] } "c" = "" ∧
    MDAdapter.Get plainTable { MD := some [("a", ["x", "y"]), ("b", [])] } "b" = "" :=
  ⟨(MDAdapter_Get_first_or_empty plainTable { MD := some [("a", ["x", "y"]), ("b", [])] } "A").1
      _ "x" ["y"] rfl (by decide),
   (MDAdapter_Get_first_or_empty plainTable { MD := some [("a", ["x", "y"]), ("b", [])] } "c").2.1
      _ rfl (by decide),
   (MDAdapter_Get_first_or_empty plainTable { MD := some [("a", ["x", "y"]), ("b", [])] } "b").2.2.1
      _ rfl (by decide)⟩

/-- C8, as stated, fails: after Set("Foo", "bar") on an empty collection Keys()
is ["foo"], which does not contain "Foo". -/
theorem MDAdapter_Keys_not_as_passed :
    "Foo" ∉ ["foo"] ∧
    ∀ lowerRune : Char → Char, ∃ m' : MDAdapter,
      MDAdapter.Set lowerRune { MD := some [] } "Foo" "bar" = .ok m' ∧ m'.Keys = ["foo"] :=
  ⟨by decide, fun _ => ⟨{ MD := some [("foo", ["bar"])] }, rfl, rfl⟩⟩

/-- C8, amended: for every carrier over a (non-nil) metadata collection and
every sequence of Set calls on it, the calls complete and Keys() afterwards
contains strings.ToLower(k) for every key k that was Set (so k itself when it
is its own lower-case form), and still contains every key it contained before.
Membership does not depend on the order in which Keys() lists the keys. -/
theorem MDAdapter_Keys_after_Set (lowerRune : Char → Char) (es : Entries (List String))
    (calls : List (String × String)) :
    ∃ m' : MDAdapter, MDAdapter.SetMany lowerRune { MD := some es } calls = .ok m' ∧
      (∀ kv, kv ∈ calls → ToLower lowerRune kv.1 ∈ m'.Keys) ∧
      (∀ kv, kv ∈ calls → ToLower lowerRune kv.1 = kv.1 → kv.1 ∈ m'.Keys) ∧
      (∀ k, k ∈ MDAdapter.Keys { MD := some es } → k ∈ m'.Keys) := by
  obtain ⟨es', hrun, hold, hnew⟩ := MDAdapter.SetMany_some lowerRune calls es
  refine ⟨{ MD := some es' }, hrun, ?_, ?_, ?_⟩
  · intro kv hkv
    rw [MDAdapter.Keys_some]
    exact hnew kv hkv
  · intro kv hkv hlow
    rw [MDAdapter.Keys_some, ← hlow]
    exact hnew kv hkv
  · intro k hk
    rw [MDAdapter.Keys_some] at hk ⊢
    exact hold k hk

/-- C8, amended, at a concrete carrier: after Set("Foo", "1") and
Set("bar", "2") on a collection that held "user", Keys() contains "foo", "bar"
and "user". -/
theorem MDAdapter_Keys_after_Set_witness :
    ∃ m' : MDAdapter,
      MDAdapter.SetMany plainTable { MD := some [("user", ["u1"])] }
        [("Foo", "1"), ("bar", "2")] = .ok m' ∧
      (∀ kv, kv ∈ [("Foo", "1"), ("bar", "2")] → ToLower plainTable kv.1 ∈ m'.Keys) ∧
      (∀ kv, kv ∈ [("Foo", "1"), ("bar", "2")] → ToLower plainTable kv.1 = kv.1 →
        kv.1 ∈ m'.Keys) ∧
      (∀ k, k ∈ MDAdapter.Keys { MD := some [("user", ["u1"])] } → k ∈ m'.Keys) :=
  MDAdapter_Keys_after_Set plainTable [("user", ["u1"])] [("Foo", "1"), ("bar", "2")]

/-- C9, as stated, fails: on an adapter whose MD is nil, Set("k", "v") does not
complete; it panics (assignment to an entry of a nil map). -/
theorem MDAdapter_Set_nil_panics :
    (¬ ∃ (lowerRune : Char → Char) (m' : MDAdapter),
      MDAdapter.Set lowerRune { MD := none } "k" "v" = .ok m') ∧
    (∀ lowerRune : Char → Char,
      MDAdapter.Set lowerRune { MD := none } "k" "v" =
        .error GoPanic.assignmentToEntryInNilMap) := by
  refine ⟨?_, fun _ => rfl⟩
  rintro ⟨lowerRune, m', h⟩
  simp [MDAdapter.Set, MD.Set] at h

/-- C9, amended: for an adapter whose MD is nil or empty, Get(k) returns the
empty string and Keys() returns the empty list; Set(k, v) completes when the MD
is empty and not nil.  The package puts an empty collection in the place of an
absent one before it uses it.  When the incoming metadata is absent,
GetCtxForClient hands the propagator the adapter over an empty collection, not
over nil.  When the outgoing metadata is absent, GetCtxToGrpc sets the injected
entries into a new empty collection, completes, and returns the context that
carries this collection. -/
theorem MDAdapter_absent_or_empty (lowerRune : Char → Char) (k v : String) :
    MDAdapter.Get lowerRune { MD := none } k = "" ∧ MDAdapter.Keys { MD := none } = [] ∧
    MDAdapter.Get lowerRune { MD := some [] } k = "" ∧ MDAdapter.Keys { MD := some [] } = [] ∧
    (∃ m' : MDAdapter, MDAdapter.Set lowerRune { MD := some [] } k v = .ok m') ∧
    (∀ (tc : TracerSpan) (ctx : Context), ctx.incoming = none →
      tc.GetCtxForClient lowerRune ctx =
        tc.propagator.Extract ctx (MDAdapter.toCarrier lowerRune { MD := some [] })) ∧
    (∀ (tc : TracerSpan) (ctx : Context) (visit : Entries String → List (String × String)),
      ctx.outgoing = none →
      ∃ es' : Entries (List String),
        setAll lowerRune (some []) (visit (tc.propagator.Inject ctx [])) = .ok (some es') ∧
        tc.GetCtxToGrpc lowerRune ctx visit = .ok (NewOutgoingContext ctx (some es'))) := by
  refine ⟨rfl, rfl, rfl, rfl, ⟨_, MDAdapter.Set_some lowerRune [] k v⟩, ?_, ?_⟩
  · intro tc ctx h
    simp [TracerSpan.GetCtxForClient, h, metadataNew]
  · intro tc ctx visit h
    obtain ⟨es', hrun, _, _⟩ := setAll_some lowerRune (visit (tc.propagator.Inject ctx [])) []
    refine ⟨es', hrun, ?_⟩
    simp [TracerSpan.GetCtxToGrpc, h, metadataNew, hrun]

/-- C9, amended, at concrete inputs.  Nothing is found on a nil collection and
an empty one has no keys.  On the background context, which has no incoming
metadata, a propagator that calls Set on the carrier it is handed sees the call
complete.  From a context without outgoing metadata GetCtxToGrpc returns a
context whose outgoing metadata is the injected entry alone. -/
theorem MDAdapter_absent_or_empty_witness :
    MDAdapter.Get plainTable { MD := none } "traceparent" = "" ∧
    MDAdapter.Keys { MD := some [] } = [] ∧
    probeFacade.GetCtxForClient plainTable background = background ∧
    ∃ es' : Entries (List String),
      setAll plainTable (some []) (id (headerFacade.propagator.Inject bareTracedContext [])) =
        .ok (some es') ∧
      headerFacade.GetCtxToGrpc plainTable bareTracedContext id =
        .ok (NewOutgoingContext bareTracedContext (some es')) :=
  ⟨(MDAdapter_absent_or_empty plainTable "traceparent" "v").1,
   (MDAdapter_absent_or_empty plainTable "traceparent" "v").2.2.2.1,
   ((MDAdapter_absent_or_empty plainTable "traceparent" "v").2.2.2.2.2.1
      probeFacade background rfl).trans rfl,
   (MDAdapter_absent_or_empty plainTable "traceparent" "v").2.2.2.2.2.2
      headerFacade bareTracedContext id rfl⟩

/-! ## Spans -/

/-- C1: for every context, span name and kind string, on a tracer whose Start
returns a span (as the tracing API promises): when kind is one of "server",
"client", "rabbitmq", "cron", StartSpan returns a nil error and a non-absent
span; for any other string (the empty string and other spellings such as
"Server" included) it returns an error, an absent span and an absent context,
and makes no call on the tracer. -/
theorem StartSpan_valid_kinds (tc : TracerSpan) (log : List Call) (ctx : Context)
    (spanName types : String)
    (hStart : ∀ l c n o, (tc.tracer.Start l c n o).2 ≠ none) :
    (types ∈ ["server", "client", "rabbitmq", "cron"] →
      (tc.StartSpan log ctx spanName types).1.err = none ∧
      (tc.StartSpan log ctx spanName types).1.span ≠ none) ∧
    (types ∉ ["server", "client", "rabbitmq", "cron"] →
      (tc.StartSpan log ctx spanName types).1.err ≠ none ∧
      (tc.StartSpan log ctx spanName types).1.span = none ∧
      (tc.StartSpan log ctx spanName types).1.ctx = none ∧
      (tc.StartSpan log ctx spanName types).2 = log) := by
  constructor
  · intro h
    simp only [List.mem_cons, List.mem_singleton, List.not_mem_nil, or_false] at h
    rcases h with h | h | h | h <;> subst h <;>
      exact ⟨rfl, hStart _ _ _ _⟩
  · intro h
    simp only [List.mem_cons, List.mem_singleton, List.not_mem_nil, or_false, not_or] at h
    obtain ⟨h1, h2, h3, h4⟩ := h
    simp [TracerSpan.StartSpan, h1, h2, h3, h4, errorsNew]

/-- C1 on the counting tracer: "cron" starts a span, "Server" is refused and
nothing is started. -/
theorem StartSpan_valid_kinds_witness :
    ((countingFacade.StartSpan [] background "job" "cron").1.err = none ∧
      (countingFacade.StartSpan [] background "job" "cron").1.span ≠ none) ∧
    ((countingFacade.StartSpan [] background "job" "Server").1.err ≠ none ∧
      (countingFacade.StartSpan [] background "job" "Server").1.span = none ∧
      (countingFacade.StartSpan [] background "job" "Server").1.ctx = none ∧
      (countingFacade.StartSpan [] background "job" "Server").2 = []) :=
  ⟨(StartSpan_valid_kinds countingFacade [] background "job" "cron"
      (fun _ _ _ _ => by simp [countingFacade, countingTracer])).1 (by decide),
   (StartSpan_valid_kinds countingFacade [] background "job" "Server"
      (fun _ _ _ _ => by simp [countingFacade, countingTracer])).2 (by decide)⟩

/-- C10: for every context and span name, StartSpan makes exactly one call on
the tracer, Start with the context and the span name as given and the one
option WithSpanKind: of server kind for "server", of client kind for "client",
of internal kind for "rabbitmq" and for "cron".  The context and span the
tracer returns are handed back.  StartSpan with "rabbitmq" and StartSpan with
"cron" make the same call and return the same result. -/
theorem StartSpan_kind_mapping (tc : TracerSpan) (log : List Call) (ctx : Context)
    (spanName : String) :
    tc.StartSpan log ctx spanName "server" =
      ({ ctx := some (tc.tracer.Start log ctx spanName [.WithSpanKind .Server]).1,
         span := (tc.tracer.Start log ctx spanName [.WithSpanKind .Server]).2,
         err := none },
       log ++ [Call.Start ctx spanName [.WithSpanKind .Server]]) ∧
    tc.StartSpan log ctx spanName "client" =
      ({ ctx := some (tc.tracer.Start log ctx spanName [.WithSpanKind .Client]).1,
         span := (tc.tracer.Start log ctx spanName [.WithSpanKind .Client]).2,
         err := none },
       log ++ [Call.Start ctx spanName [.WithSpanKind .Client]]) ∧
    tc.StartSpan log ctx spanName "rabbitmq" =
      ({ ctx := some (tc.tracer.Start log ctx spanName [.WithSpanKind .Internal]).1,
         span := (tc.tracer.Start log ctx spanName [.WithSpanKind .Internal]).2,
         err := none },
       log ++ [Call.Start ctx spanName [.WithSpanKind .Internal]]) ∧
    tc.StartSpan log ctx spanName "cron" =
      ({ ctx := some (tc.tracer.Start log ctx spanName [.WithSpanKind .Internal]).1,
         span := (tc.tracer.Start log ctx spanName [.WithSpanKind .Internal]).2,
         err := none },
       log ++ [Call.Start ctx spanName [.WithSpanKind .Internal]]) ∧
    tc.StartSpan log ctx spanName "rabbitmq" = tc.StartSpan log ctx spanName "cron" :=
  ⟨rfl, rfl, rfl, rfl, rfl⟩

/-- C2: for every non-absent span and every error value, EndSpan makes these
calls on the span, in this order, and no other.  With a nil error:
SetAttributes(trace.level = "INFO", rpc.status_code = 2), SetStatus(Ok, "Ok"),
End.  With a non-nil error err: RecordError(err), SetAttributes(trace.level =
"ERROR", rpc.status_code = 1), SetStatus(Error, message of err), End.  So the
span is ended exactly once, the error is recorded exactly when it is not nil,
and rpc.status_code is the numeric value of the status code that was set (Ok is
2, Error is 1). -/
theorem EndSpan_calls (tc : TracerSpan) (log : List Call) (ctx : Context) (span : Span) :
    tc.EndSpan log ctx (some span) none =
      log ++ [Call.SetAttributes span
                [attributeString "trace.level" "INFO", attributeInt64 "rpc.status_code" 2],
              Call.SetStatus span Code.Ok "Ok",
              Call.End span] ∧
    (∀ err : ErrorValue, tc.EndSpan log ctx (some span) (some err) =
      log ++ [Call.RecordError span err,
              Call.SetAttributes span
                [attributeString "trace.level" "ERROR", attributeInt64 "rpc.status_code" 1],
              Call.SetStatus span Code.Error err.msg,
              Call.End span]) ∧
    Code.Ok.toNat = 2 ∧ Code.Error.toNat = 1 := by
  refine ⟨?_, ?_, rfl, rfl⟩
  · simp [TracerSpan.EndSpan, Code.toNat, Code.String]
  · intro err
    simp [TracerSpan.EndSpan, Code.toNat]

/-- C3: for every context and every error value, nil or not, EndSpan with an
absent span returns without failing and makes no call at all: no RecordError,
no SetAttributes, no SetStatus, no End. -/
theorem EndSpan_absent_span (tc : TracerSpan) (log : List Call) (ctx : Context)
    (err : GoError) : tc.EndSpan log ctx none err = log :=
  rfl

/-! ## The singleton -/

/-- C4, as stated, fails: when initialisation fails for the first
configuration, the first call returns no facade and an error, and the second
call runs initialisation again and returns a facade built from the second
configuration. -/
theorem GetNewTracerSpan_after_failed_init :
    (GetNewTracerSpan strictSls unnamedConfig freshProcess).1.1 = none ∧
    (GetNewTracerSpan strictSls unnamedConfig freshProcess).1.2 =
      some { msg := "empty service name" } ∧
    (GetNewTracerSpan strictSls mainConfig
      (GetNewTracerSpan strictSls unnamedConfig freshProcess).2).1 = (some 0, none) ∧
    (GetNewTracerSpan strictSls mainConfig
      (GetNewTracerSpan strictSls unnamedConfig freshProcess).2).2.initCalls =
        [unnamedConfig, mainConfig] ∧
    (GetNewTracerSpan strictSls mainConfig
      (GetNewTracerSpan strictSls unnamedConfig freshProcess).2).2.heap.map
        (fun t => t.config) = [mainConfig] :=
  ⟨rfl, rfl, rfl, rfl, rfl⟩

/-- C4, amended: for every pair of configurations c1 and c2, if the call
GetNewTracerSpan(c1) returns without error, then it returns a facade and the
call GetNewTracerSpan(c2) after it returns the same facade (the same address)
without error and leaves the whole process state as it was: no initialisation
is run, nothing is allocated, c2 is not looked at.  When no facade existed
before the first call, the facade holds c1, the provider and propagator that
InitTrace(c1) returned and the tracer GetTracer built from them and the service
name of c1. -/
theorem GetNewTracerSpan_singleton (sls : Provider) (c1 c2 : TraceConfig) (p : Process)
    (hok : (GetNewTracerSpan sls c1 p).1.2 = none) :
    ∃ t : Nat,
      (GetNewTracerSpan sls c1 p).1 = (some t, none) ∧
      (GetNewTracerSpan sls c2 (GetNewTracerSpan sls c1 p).2).1 = (some t, none) ∧
      (GetNewTracerSpan sls c2 (GetNewTracerSpan sls c1 p).2).2 = (GetNewTracerSpan sls c1 p).2 ∧
      (p.newTrace = none →
        ∃ (inst : TracerSpan) (providers : TracerProvider) (propagator : TextMapPropagator)
          (p' : Process),
          (GetNewTracerSpan sls c1 p).2.heap[t]? = some inst ∧
          InitTrace sls c1 p = (.ok (providers, propagator), p') ∧
          inst.config = c1 ∧ inst.provider = providers ∧ inst.propagator = propagator ∧
          inst.tracer = (GetTracer providers propagator c1.ServiceName p').1 ∧
          (GetNewTracerSpan sls c1 p).2.initCalls = p.initCalls ++ [c1]) := by
  cases hnew : p.newTrace with
  | some t =>
    refine ⟨t, ?_, ?_, ?_, ?_⟩
    · simp [GetNewTracerSpan, hnew]
    · simp [GetNewTracerSpan, hnew]
    · simp [GetNewTracerSpan, hnew]
    · intro h
      cases h
  | none =>
    rcases hinit : InitTrace sls c1 p with ⟨r, p'⟩
    cases r with
    | error err =>
      simp [GetNewTracerSpan, hnew, hinit] at hok
    | ok pr =>
      obtain ⟨providers, propagator⟩ := pr
      have hcalls : p'.initCalls = p.initCalls ++ [c1] := by
        simp only [InitTrace] at hinit
        split at hinit
        · simp at hinit
        · split at hinit
          · simp at hinit
          · simp only [Prod.mk.injEq] at hinit
            rw [← hinit.2]
      refine ⟨p'.heap.length, ?_, ?_, ?_, ?_⟩
      · simp [GetNewTracerSpan, hnew, hinit, GetTracer]
      · simp [GetNewTracerSpan, hnew, hinit, GetTracer]
      · simp [GetNewTracerSpan, hnew, hinit, GetTracer]
      · intro _
        refine ⟨{ config := c1, provider := providers, propagator := propagator,
                  tracer := (GetTracer providers propagator c1.ServiceName p').1 },
          providers, propagator, p', ?_, rfl, rfl, rfl, rfl, rfl, ?_⟩
        · simp [GetNewTracerSpan, hnew, hinit, GetTracer]
        · simp [GetNewTracerSpan, hnew, hinit, GetTracer, hcalls]

/-- C4, amended, on the strict exporter: the configuration of `main.go` first,
another one second. -/
theorem GetNewTracerSpan_singleton_witness :
    ∃ t : Nat,
      (GetNewTracerSpan strictSls mainConfig freshProcess).1 = (some t, none) ∧
      (GetNewTracerSpan strictSls otherConfig
        (GetNewTracerSpan strictSls mainConfig freshProcess).2).1 = (some t, none) ∧
      (GetNewTracerSpan strictSls otherConfig
        (GetNewTracerSpan strictSls mainConfig freshProcess).2).2 =
          (GetNewTracerSpan strictSls mainConfig freshProcess).2 ∧
      (freshProcess.newTrace = none →
        ∃ (inst : TracerSpan) (providers : TracerProvider) (propagator : TextMapPropagator)
          (p' : Process),
          (GetNewTracerSpan strictSls mainConfig freshProcess).2.heap[t]? = some inst ∧
          InitTrace strictSls mainConfig freshProcess = (.ok (providers, propagator), p') ∧
          inst.config = mainConfig ∧ inst.provider = providers ∧
          inst.propagator = propagator ∧
          inst.tracer = (GetTracer providers propagator mainConfig.ServiceName p').1 ∧
          (GetNewTracerSpan strictSls mainConfig freshProcess).2.initCalls =
            freshProcess.initCalls ++ [mainConfig]) :=
  GetNewTracerSpan_singleton strictSls mainConfig otherConfig freshProcess rfl

/-! ## Trace context across the RPC boundary -/

/-- C5, as stated, fails.  The shadow propagator recovers the trace ID of the
traced context from every carrier whose Get returns, for each key it injected,
the value it injected.  Its two keys, "Trace-Id" and "trace-id", are one key in
a metadata collection.  When range visits "Trace-Id" first, the collection
GetCtxToGrpc builds holds the other value under "trace-id", and the context
GetCtxForClient returns from it has the trace ID ffff...ff, not 0102...10.  When
range visits "Trace-Id" last, the trace ID comes back. -/
theorem roundtrip_lost_when_keys_collide :
    shadowFacade.GetTraceID tracedContext = "0102030405060708090a0b0c0d0e0f10" ∧
    (∀ (ctx2 : Context) (carrier : TextMapCarrier),
      (∀ e, e ∈ shadowFacade.propagator.Inject tracedContext [] →
        carrier.Get carrier.state e.1 = e.2) →
      shadowFacade.GetTraceID (shadowFacade.propagator.Extract ctx2 carrier) =
        shadowFacade.GetTraceID tracedContext) ∧
    (List.reverse (shadowFacade.propagator.Inject tracedContext [])).Perm
      (shadowFacade.propagator.Inject tracedContext []) ∧
    (∀ lowerRune : Char → Char, ∃ out : Context,
      shadowFacade.GetCtxToGrpc lowerRune tracedContext List.reverse = .ok out ∧
      shadowFacade.GetTraceID
        (shadowFacade.GetCtxForClient lowerRune { background with incoming := out.outgoing }) =
          "ffffffffffffffffffffffffffffffff") ∧
    (∀ lowerRune : Char → Char, ∃ out : Context,
      shadowFacade.GetCtxToGrpc lowerRune tracedContext id = .ok out ∧
      shadowFacade.GetTraceID
        (shadowFacade.GetCtxForClient lowerRune { background with incoming := out.outgoing }) =
          "0102030405060708090a0b0c0d0e0f10") := by
  refine ⟨by decide, ?_, List.reverse_perm _, fun _ => ⟨_, rfl, rfl⟩, fun _ => ⟨_, rfl, rfl⟩⟩
  intro ctx2 carrier h
  have hget : carrier.Get carrier.state "Trace-Id" = "0102030405060708090a0b0c0d0e0f10" :=
    h ("Trace-Id", "0102030405060708090a0b0c0d0e0f10") (by decide)
  simp only [TracerSpan.GetTraceID, shadowFacade, shadowPropagator, headerPropagator, hget,
    SpanContext.HasTraceID]
  decide

/-- C5, amended: for every context ctx, whatever metadata its outgoing context
already holds and in whatever order range visits the injected entries,
GetCtxToGrpc(ctx) completes, and when the metadata collection it places in the
outgoing context is the incoming metadata of a context given to
GetCtxForClient, the trace ID of the resulting context (as GetTraceID returns
it) is GetTraceID(ctx), provided that no two keys the propagator injects have
the same lower-case form, and that the propagator recovers the trace ID of ctx
from every carrier whose Get returns, for each key it injected, the value it
injected.  The keys may be written in any letter case. -/
theorem GetCtxToGrpc_GetCtxForClient_roundtrip (lowerRune : Char → Char) (tc : TracerSpan)
    (ctx : Context) (visit : Entries String → List (String × String))
    (hvisit : (visit (tc.propagator.Inject ctx [])).Perm (tc.propagator.Inject ctx []))
    (hkeys : ((tc.propagator.Inject ctx []).map (fun e => ToLower lowerRune e.1)).Nodup)
    (hprop : ∀ (ctx2 : Context) (carrier : TextMapCarrier),
      (∀ e, e ∈ tc.propagator.Inject ctx [] → carrier.Get carrier.state e.1 = e.2) →
      tc.GetTraceID (tc.propagator.Extract ctx2 carrier) = tc.GetTraceID ctx) :
    ∃ out : Context, tc.GetCtxToGrpc lowerRune ctx visit = .ok out ∧
      ∀ ctx2 : Context, ctx2.incoming = out.outgoing →
        tc.GetTraceID (tc.GetCtxForClient lowerRune ctx2) = tc.GetTraceID ctx := by
  have hnd :
      ((visit (tc.propagator.Inject ctx [])).map (fun e => ToLower lowerRune e.1)).Nodup :=
    ((hvisit.map _).nodup_iff).mpr hkeys
  have hmd : ∃ es0,
      (if ctx.outgoing = none then metadataNew lowerRune [] else ctx.outgoing) = some es0 := by
    cases h : ctx.outgoing with
    | none => exact ⟨[], by simp [metadataNew]⟩
    | some es => exact ⟨es, by simp⟩
  obtain ⟨es0, hes0⟩ := hmd
  obtain ⟨es', hrun, _, hset⟩ :=
    setAll_some lowerRune (visit (tc.propagator.Inject ctx [])) es0
  refine ⟨NewOutgoingContext ctx (some es'), ?_, ?_⟩
  · simp only [TracerSpan.GetCtxToGrpc, hes0, hrun]
  · intro ctx2 hin
    have hin' : ctx2.incoming = some es' := by simpa [NewOutgoingContext] using hin
    have hcar : tc.GetCtxForClient lowerRune ctx2 =
        tc.propagator.Extract ctx2 (MDAdapter.toCarrier lowerRune { MD := some es' }) := by
      simp [TracerSpan.GetCtxForClient, hin']
    rw [hcar]
    apply hprop
    intro e he
    have hfind := hset hnd e (hvisit.mem_iff.mpr he)
    simp [MDAdapter.toCarrier, MDAdapter.Get, MD.Get, hfind]

/-- C5, amended, on the header propagator, whose key "Trace-Id" is in mixed
case, from a context whose outgoing metadata already holds stale values under
that key. -/
theorem GetCtxToGrpc_GetCtxForClient_roundtrip_witness :
    ∃ out : Context, headerFacade.GetCtxToGrpc plainTable tracedContext id = .ok out ∧
      ∀ ctx2 : Context, ctx2.incoming = out.outgoing →
        headerFacade.GetTraceID (headerFacade.GetCtxForClient plainTable ctx2) =
          headerFacade.GetTraceID tracedContext :=
  GetCtxToGrpc_GetCtxForClient_roundtrip plainTable headerFacade tracedContext id
    (List.Perm.refl _) (by decide)
    (fun ctx2 carrier h => by
      have hget : carrier.Get carrier.state "Trace-Id" = "0102030405060708090a0b0c0d0e0f10" :=
        h ("Trace-Id", "0102030405060708090a0b0c0d0e0f10") (by decide)
      simp only [TracerSpan.GetTraceID, headerFacade, headerPropagator, hget,
        SpanContext.HasTraceID]
      decide)

end Traces
